import Mathlib

/-!
# Verification of the powerboot render core

A shallow embedding of the powerboot repository (src/result.js, src/ember-app.js,
src/index.js, src/fastboot-request.js, src/fastboot-response.js, src/fastboot-info.js)
together with proofs of the specified properties of its render-instance lifecycle,
result chunking, shoebox writing, host validation and error classification.

Strings are modelled by Lean `String` (lists of characters); JavaScript `undefined`
is modelled by `Option`; fallible operations return `Except`.  External collaborators
(the JS regular-expression engine, the cookie-parsing library) enter as explicit
function parameters.
-/

namespace Powerboot

/-! ## Generic list-of-characters split/join machinery

`Result.chunks` (src/result.js) splits the cached document with the regular
expression `^([\s\S]*<\/head>)([\s\S]*)` (greedy, so group 1 ends at the LAST
occurrence of `</head>`) and with `String.prototype.split` on the literal
shoebox-tag pattern.  Both are modelled by an explicit split-on-substring
function; `joinSep` is the inverse gluing operation (`parts` interleaved with
the separator). -/

/-- Interleave a separator between the parts: the inverse of splitting. -/
def joinSep (sep : List Char) : List (List Char) → List Char
  | [] => []
  | [p] => p
  | p :: q :: ps => p ++ sep ++ joinSep sep (q :: ps)

/-- Split `xs` at every occurrence of `sep`, scanning left to right
(`String.prototype.split` semantics for a non-empty literal separator).
`fuel` bounds the recursion; `splitOnList` supplies enough fuel that the
bound is never hit. -/
def splitOnAux (sep : List Char) : Nat → List Char → List Char → List (List Char)
  | 0, xs, acc => [acc.reverse ++ xs]
  | _ + 1, [], acc => [acc.reverse]
  | fuel + 1, x :: rest, acc =>
    match sep.isPrefixOf (x :: rest) with
    | true => acc.reverse :: splitOnAux sep fuel ((x :: rest).drop sep.length) []
    | false => splitOnAux sep fuel rest (x :: acc)

/-- Split a character list at every occurrence of the separator. -/
def splitOnList (sep xs : List Char) : List (List Char) :=
  splitOnAux sep (xs.length + 1) xs []

/-! ## src/result.js — `Result` -/

/-- A JavaScript `Error`: `message` is `none` when the property is `undefined`. -/
structure JsError where
  message : Option String
deriving DecidableEq

/-- `SHOEBOX_TAG_PATTERN` from src/result.js line 3. -/
def SHOEBOX_TAG_PATTERN : String := "<script type=\"fastboot/shoebox\""

/-- The `</head>` anchor of `HTML_HEAD_REGEX` (src/result.js line 4):
the greedy regex `^([\s\S]*<\/head>)([\s\S]*)` captures everything up to the
last `</head>` in group 1 and the remainder in group 2, and fails to match
exactly when the document contains no `</head>`. -/
def HEAD_CLOSE_TAG : String := "</head>"

/-- Header mapping.  Modelled from the spec: `FastBootHeaders`
(src/fastboot-headers.js is not part of the repository snapshot); the spec
describes it as a mapping with case-insensitive keys. -/
structure FastBootHeaders where
  entries : List (String × String)
deriving DecidableEq

/-- ASCII lowercasing of one character (header keys are ASCII). -/
def asciiLowerChar (c : Char) : Char :=
  if 65 ≤ c.toNat ∧ c.toNat ≤ 90 then Char.ofNat (c.toNat + 32) else c

/-- ASCII lowercasing of a header key. -/
def lowerKey (s : String) : String := String.mk (s.data.map asciiLowerChar)

/-- Modelled from the spec: case-insensitive header lookup (`headers.get(key)`),
`none` when the header is absent. -/
def FastBootHeaders.get (h : FastBootHeaders) (key : String) : Option String :=
  (h.entries.find? fun p => lowerKey p.1 == lowerKey key).map Prod.snd

/-- Modelled from the spec: `new FastBootHeaders(raw)`; an absent raw mapping
yields an empty mapping. -/
def FastBootHeaders.ofRaw (raw : Option (List (String × String))) : FastBootHeaders :=
  ⟨raw.getD []⟩

/-- Modelled from the spec: `FastBootHeaders.serialize` returns the mapping. -/
def FastBootHeaders.serializeHeaders (h : FastBootHeaders) : List (String × String) :=
  h.entries

/-- The raw response object handed to `new FastBootResponse(...)`
(src/fastboot-response.js): only the two properties the class reads.
A missing property is `none`. -/
structure RespRaw where
  _headers : Option (List (String × String))
  statusCode : Option Nat
deriving DecidableEq

/-- `FastbootResponse` (src/fastboot-response.js): stores the raw response and
wraps its `_headers` in a `FastBootHeaders`. -/
structure FastbootResponse where
  _response : RespRaw
  headers : FastBootHeaders
deriving DecidableEq

/-- `new FastBootResponse(response)`. -/
def FastbootResponse.ofRaw (response : RespRaw) : FastbootResponse :=
  { _response := response, headers := FastBootHeaders.ofRaw response._headers }

/-- The `statusCode` getter: `this._response.statusCode || 200` — both an
absent status code and the (falsy) status code `0` default to `200`. -/
def FastbootResponse.getStatusCode (resp : FastbootResponse) : Nat :=
  match resp._response.statusCode with
  | none => 200
  | some 0 => 200
  | some n => n

/-- The serialized form of a response: `{ headers, statusCode }`. -/
structure RespData where
  headers : FastBootHeaders
  statusCode : Nat
deriving DecidableEq

/-- `FastbootResponse.serialize` (src/fastboot-response.js). -/
def FastbootResponse.serializeResponse (resp : FastbootResponse) : RespData :=
  { headers := resp.headers, statusCode := resp.getStatusCode }

/-- Reading the serialized response object as a raw response (the reconstruction
path passes the serialized `{ headers, statusCode }` object to
`new FastBootResponse(...)`): it has no `_headers` property, and its
`statusCode` property is the serialized code. -/
def RespData.asRaw (d : RespData) : RespRaw :=
  { _headers := none, statusCode := some d.statusCode }

/-- The mutable string-cache state of a `Result` (src/result.js): the cached
full-document markup, head and body fragments captured by `_reflectContents`,
plus `this._fastbootInfo.response` (`none` when no response is attached). -/
structure ResultState where
  _html : String
  _head : String
  _body : String
  response : Option FastbootResponse
deriving DecidableEq

/-- `Result.html()` (src/result.js lines 94-115).  Returns the produced string
together with the updated cache state (the status-code-driven branches
overwrite `_html`, `_head` and `_body` in place).  The redirect branch checks
JavaScript truthiness of `headers.get('location')`, so both an absent and an
empty `location` header leave the boundary-comment placeholder. -/
def Result.htmlRun (st : ResultState) : String × ResultState :=
  match st.response with
  | none => (st._html, st)
  | some response =>
    let statusCode := response.getStatusCode
    if statusCode = 204 then
      let st' := { st with _html := "", _head := "", _body := "" }
      (st'._html, st')
    else if 300 ≤ statusCode ∧ statusCode ≤ 399 then
      let base := { st with
        _html := "<html><head></head><body><!-- EMBER_CLI_FASTBOOT_BODY --></body></html>",
        _head := "", _body := "" }
      match response.headers.get "location" with
      | some location =>
        if location = "" then (base._html, base)
        else
          let st' := { base with
            _html := "<html><head></head><body><h1>Redirecting to <a href=\"" ++ location
              ++ "\">" ++ location ++ "</a></h1></body></html>" }
          (st'._html, st')
      | none => (base._html, base)
    else (st._html, st)

/-- `Result.domContents()` (src/result.js lines 161-166): the cached
head/body pair, no re-harvest. -/
def Result.domContents (st : ResultState) : String × String :=
  (st._head, st._body)

/-- `Result.chunks()` (src/result.js lines 128-154) on the character list of
the cached document.  First the head/body split via the greedy
`HTML_HEAD_REGEX` (no `</head>` ⇒ no match ⇒ the whole document is the single
chunk); then the body is split on `SHOEBOX_TAG_PATTERN`, re-prefixing the
pattern onto every split-off piece except the first.  The structural error is
raised when the regex matched but a captured group is empty (JS falsiness of
`head`/`body`). -/
def chunksList (html : List Char) : Except String (List (List Char)) :=
  match splitOnList HEAD_CLOSE_TAG.data html with
  | [] => Except.ok [html]
  | [_] => Except.ok [html]
  | p :: q :: ps =>
    let headPart := joinSep HEAD_CLOSE_TAG.data (p :: q :: ps).dropLast ++ HEAD_CLOSE_TAG.data
    let bodyPart := (p :: q :: ps).getLast (List.cons_ne_nil p (q :: ps))
    if headPart = [] ∨ bodyPart = [] then
      Except.error "Could not idenfity head and body of the document! Make sure the document is well formed."
    else
      let bodyParts := splitOnList SHOEBOX_TAG_PATTERN.data bodyPart
      Except.ok (headPart :: bodyParts.headD [] ::
        bodyParts.tail.map fun s => SHOEBOX_TAG_PATTERN.data ++ s)

/-- `Result.chunks()` at the string level. -/
def Result.chunksRun (html : String) : Except String (List String) :=
  (chunksList html.data).map fun ls => ls.map fun l => String.mk l

/-- The closed-surface test of `tryWithPageAwareness` (src/result.js line 218):
`err.message.match(/(Target|Session) closed\./)`, i.e. the message contains
`Target closed.` or `Session closed.`. -/
def containsSub (needle : List Char) : List Char → Bool
  | [] => needle.isPrefixOf []
  | x :: xs => needle.isPrefixOf (x :: xs) || containsSub needle xs

/-- Whether an error message matches `/(Target|Session) closed\./`. -/
def closedMessageMatch (m : String) : Bool :=
  containsSub "Target closed.".data m.data || containsSub "Session closed.".data m.data

/-- JavaScript truthiness of `err.message`: `undefined` and the empty string
are falsy. -/
def jsTruthyMessage : Option String → Bool
  | none => false
  | some m => m != ""

/-- `tryWithPageAwareness` (src/result.js lines 214-220): rethrows only when
`err.message && !err.message.match(/(Target|Session) closed\./)`; otherwise the
error is swallowed and the call yields `undefined` (`none`). -/
def tryWithPageAwareness {α : Type} (callback : Except JsError α) : Except JsError (Option α) :=
  match callback with
  | Except.ok a => Except.ok (some a)
  | Except.error err =>
    if jsTruthyMessage err.message && !closedMessageMatch (err.message.getD "") then
      Except.error err
    else
      Except.ok none

/-- `Result.evaluate` (src/result.js lines 60-67): no-op returning `undefined`
once `_instanceDestroyed`, otherwise the page evaluation wrapped in
`tryWithPageAwareness`. -/
def Result.evaluateRun {α : Type} (instanceDestroyed : Bool)
    (callback : Except JsError α) : Except JsError (Option α) :=
  if instanceDestroyed then Except.ok none else tryWithPageAwareness callback

/-- `Result.setContent` (src/result.js lines 46-52): like `evaluate` but the
callback result is discarded (the method always resolves to `undefined`). -/
def Result.setContentRun {α : Type} (instanceDestroyed : Bool)
    (callback : Except JsError α) : Except JsError (Option Unit) :=
  if instanceDestroyed then Except.ok none
  else (tryWithPageAwareness callback).map fun _ => none

/-! ## src/ember-app.js — `EmberApp`, shoebox -/

/-- The `JSON_ESCAPE` table with `JSON_ESCAPE_REGEXP` replacement
(src/ember-app.js lines 270-291), applied to a single character. -/
def escapeJSONChar (c : Char) : String :=
  if c = '&' then "\\u0026"
  else if c = '>' then "\\u003e"
  else if c = '<' then "\\u003c"
  else if c = '\u2028' then "\\u2028"
  else if c = '\u2029' then "\\u2029"
  else String.singleton c

/-- `escapeJSONString` (src/ember-app.js lines 287-291):
`string.replace(JSON_ESCAPE_REGEXP, match => JSON_ESCAPE[match])`. -/
def escapeJSONString (s : String) : String :=
  String.join (s.data.map escapeJSONChar)

/-- The script element inserted per shoebox key (src/ember-app.js lines 263-266). -/
def shoeboxScriptTag (key escapedJSON : String) : String :=
  "<script type=\"fastboot/shoebox\" id=\"shoebox-" ++ key ++ "\">" ++ escapedJSON ++ "</script>"

/-- `createShoebox` (src/ember-app.js lines 253-268) as a transformation of the
document body: for each own key of the shoebox mapping, in iteration order, the
JSON-serialized value (the second component of each entry, since
`JSON.stringify` is an external collaborator) is escaped and one shoebox script
element is appended at the end of the body.  An absent shoebox leaves the body
unchanged. -/
def createShoebox (body : String) (shoebox : Option (List (String × String))) : String :=
  match shoebox with
  | none => body
  | some entries =>
    entries.foldl (fun b kv => b ++ shoeboxScriptTag kv.1 (escapeJSONString kv.2)) body

/-- The shoebox-writing step of `_visitRoute` (src/ember-app.js lines 179-182):
skipped entirely when `disableShoebox` is set. -/
def writeShoeboxStep (disableShoebox : Bool) (body : String)
    (shoebox : Option (List (String × String))) : String :=
  if disableShoebox then body else createShoebox body shoebox

/-- The boot-related state of an `EmberApp` instance (src/ember-app.js)
together with two instrumentation fields: `bootCount` counts how many times the
boot-time injection block of `_visitRoute` (sandbox globals, environment shim,
app/vendor evaluation, bundle definition — lines 158-168) has run, and
`sandboxGlobalsPresent` tracks whether the injected sandbox globals are present
in the browser page.  `hasInitialized` is the property the visit protocol
consults (`this.hasInitialized`, undefined — falsy — at construction);
`_hasInitialized` is the distinct property written by the constructor (line 44)
and by the deadline timer (line 114). -/
structure EmberAppState where
  hasInitialized : Bool
  _hasInitialized : Bool
  bootCount : Nat
  sandboxGlobalsPresent : Bool
deriving DecidableEq

/-- A freshly constructed `EmberApp` (src/ember-app.js line 44 sets
`this._hasInitialized = false`; `this.hasInitialized` is still undefined). -/
def EmberAppState.init : EmberAppState :=
  { hasInitialized := false, _hasInitialized := false, bootCount := 0,
    sandboxGlobalsPresent := false }

/-- Events affecting the boot state of one instance. -/
inductive InstanceEvent
  | visit
  | deadlineFire
deriving DecidableEq

/-- One event on the instance state.
`visit`: `_visitRoute` (lines 157-168) runs the boot-time injection block iff
`!this.hasInitialized`, first setting `this.hasInitialized = true`.
`deadlineFire`: the `destroyAppInstanceTimer` callback (lines 102-115)
force-reloads the page (discarding the injected in-page state) and sets
`this._hasInitialized = false` — it does not touch `this.hasInitialized`. -/
def stepEvent (s : EmberAppState) : InstanceEvent → EmberAppState
  | InstanceEvent.visit =>
    if s.hasInitialized then s
    else { s with hasInitialized := true, bootCount := s.bootCount + 1,
                  sandboxGlobalsPresent := true }
  | InstanceEvent.deadlineFire =>
    { s with _hasInitialized := false, sandboxGlobalsPresent := false }

/-- Run a sequence of instance events. -/
def runEvents (events : List InstanceEvent) (s : EmberAppState) : EmberAppState :=
  events.foldl stepEvent s

/-! ## src/fastboot-request.js — `FastBootRequest` -/

/-- The raw request object (a Node `ClientRequest` or, on the reconstruction
path, the output of `FastBootRequest.serialize`): the properties the class
reads.  `cookies` is `some` when upstream middleware already parsed cookies. -/
structure RequestData where
  hostWhitelist : Option (List String)
  protocol : String
  headers : List (String × String)
  query : String
  url : String
  method : String
  body : String
  cookies : Option (List (String × String))
deriving DecidableEq

/-- `extractCookies` (src/fastboot-request.js lines 44-59): prefer
already-parsed cookies; otherwise parse the raw `cookie` header with the
external `cookie` library (`cookieParse`); otherwise the empty mapping.
An empty-string header is falsy and also yields the empty mapping. -/
def extractCookies (cookieParse : String → List (String × String))
    (request : RequestData) : List (String × String) :=
  match request.cookies with
  | some cs => cs
  | none =>
    match (request.headers.find? fun p => p.1 == "cookie").map Prod.snd with
    | some raw => if raw = "" then [] else cookieParse raw
    | none => []

/-- `FastBootRequest` (src/fastboot-request.js lines 6-20). -/
structure FastBootRequest where
  hostWhitelist : Option (List String)
  protocol : String
  headers : FastBootHeaders
  queryParams : String
  path : String
  method : String
  body : String
  cookies : List (String × String)
deriving DecidableEq

/-- `new FastBootRequest(request, hostWhitelist)`: note the constructor appends
`:` to the raw protocol. -/
def FastBootRequest.ofRaw (cookieParse : String → List (String × String))
    (request : RequestData) (hostWhitelist : Option (List String)) : FastBootRequest :=
  { hostWhitelist := hostWhitelist,
    protocol := request.protocol ++ ":",
    headers := FastBootHeaders.ofRaw (some request.headers),
    queryParams := request.query,
    path := request.url,
    method := request.method,
    body := request.body,
    cookies := extractCookies cookieParse request }

/-- `FastBootRequest.serialize` (src/fastboot-request.js lines 61-72). -/
def FastBootRequest.serializeRequest (r : FastBootRequest) : RequestData :=
  { hostWhitelist := r.hostWhitelist,
    protocol := r.protocol,
    headers := r.headers.serializeHeaders,
    query := r.queryParams,
    url := r.path,
    method := r.method,
    body := r.body,
    cookies := some r.cookies }

/-- JavaScript string coercion of the possibly-undefined host header, as
performed by `RegExp.prototype.test` and by template-literal interpolation. -/
def hostToJsString : Option String → String
  | some h => h
  | none => "undefined"

/-- Whether one whitelist entry matches the host (src/fastboot-request.js
lines 28-35): a slash-delimited entry (`entry[0] === '/' &&
entry.slice(-1) === '/'`) is tested as a regular expression on its inner text
(the regex engine is the external collaborator `regexTest`); any other entry
matches by strict string equality, which is false when the header is absent. -/
def entryMatchesHost (regexTest : String → String → Bool)
    (host : Option String) (entry : String) : Bool :=
  if 0 < entry.length ∧ entry.front = '/' ∧ entry.back = '/' then
    regexTest (String.mk ((entry.data.drop 1).dropLast)) (hostToJsString host)
  else
    match host with
    | some h => entry == h
    | none => false

/-- `FastBootRequest.host()` (src/fastboot-request.js lines 22-42):
fails when no whitelist is configured, fails when no entry matches the
`Host` header, and returns the header value when some entry matches. -/
def FastBootRequest.hostRun (regexTest : String → String → Bool)
    (hostWhitelist : Option (List String)) (hostHeader : Option String) :
    Except String (Option String) :=
  match hostWhitelist with
  | none => Except.error "You must provide a hostWhitelist to retrieve the host"
  | some wl =>
    if wl.any (entryMatchesHost regexTest hostHeader) then
      Except.ok hostHeader
    else
      Except.error ("The host header did not match a hostWhitelist entry. Host header: "
        ++ hostToJsString hostHeader)

/-! ## src/fastboot-info.js — `FastBootInfo` -/

/-- The options slot of a `FastBootInfo`: `{ hostWhitelist, metadata }`.
Metadata is an arbitrary JSON-serializable value, modelled by its JSON text. -/
structure FBOptions where
  hostWhitelist : Option (List String)
  metadata : Option String
deriving DecidableEq

/-- `FastBootInfo` (src/fastboot-info.js lines 292-304): the request is present
only when a raw request was supplied; the response is ALWAYS constructed
(`new FastBootResponse(response || {})`).  The shoebox is an arbitrary
JSON-serializable value, modelled by its JSON text. -/
structure FastBootInfo where
  request : Option FastBootRequest
  response : FastbootResponse
  metadata : Option String
  shoebox : Option String
deriving DecidableEq

/-- `new FastBootInfo(request, response, options, shoebox)`. -/
def FastBootInfo.construct (cookieParse : String → List (String × String))
    (request : Option RequestData) (response : Option RespRaw)
    (options : FBOptions) (shoebox : Option String) : FastBootInfo :=
  { request := request.map fun r => FastBootRequest.ofRaw cookieParse r options.hostWhitelist,
    response := FastbootResponse.ofRaw (response.getD { _headers := none, statusCode := none }),
    metadata := options.metadata,
    shoebox := shoebox }

/-- The ordered four-slot tuple produced by `FastBootInfo.serialize`
(src/fastboot-info.js lines 326-336). -/
structure SerializedInfo where
  requestData : Option RequestData
  responseData : Option RespData
  options : FBOptions
  shoebox : Option String
deriving DecidableEq

/-- `FastBootInfo.serialize`: `[request?.serialize() ?? undefined,
response?.serialize() ?? undefined, { hostWhitelist: (request || {}).hostWhitelist,
metadata }, shoebox]`.  The constructor always sets `this.response`, so the
second slot is always populated; the first is `undefined` exactly when no
request is present, and `hostWhitelist` is `undefined` when no request is
present (it is read off `this.request`). -/
def FastBootInfo.serializeInfo (info : FastBootInfo) : SerializedInfo :=
  { requestData := info.request.map FastBootRequest.serializeRequest,
    responseData := some info.response.serializeResponse,
    options := { hostWhitelist := info.request.bind FastBootRequest.hostWhitelist,
                 metadata := info.metadata },
    shoebox := info.shoebox }

/-- Reconstructing a `FastBootInfo` on the other side of the execution-context
boundary: `new FastBootInfo(...tuple)`, where the serialized response object is
read as a raw response (`RespData.asRaw`). -/
def SerializedInfo.reconstruct (cookieParse : String → List (String × String))
    (t : SerializedInfo) : FastBootInfo :=
  FastBootInfo.construct cookieParse t.requestData (t.responseData.map RespData.asRaw)
    t.options t.shoebox

/-! ## src/index.js — `PowerBoot` -/

/-- The fields of the `Result` that `PowerBoot.visit` inspects: the captured
render error (set on the result by `EmberApp.visit`) and the produced document. -/
structure VisitResult where
  error : Option JsError
  html : String
deriving DecidableEq

/-- Resolution of the `resilient` flag (src/index.js lines 93-97): the explicit
per-visit option wins; when it is `undefined` the instance configuration is
used. -/
def resolveResilient (optionsResilient : Option Bool) (configResilient : Bool) : Bool :=
  match optionsResilient with
  | none => configResilient
  | some b => b

/-- The tail of `PowerBoot.visit` (src/index.js lines 124-128):
`if (!resilient && result.error) throw result.error; else return result`. -/
def PowerBoot.visitOutcome (optionsResilient : Option Bool) (configResilient : Bool)
    (result : VisitResult) : Except JsError VisitResult :=
  if !resolveResilient optionsResilient configResilient then
    match result.error with
    | some e => Except.error e
    | none => Except.ok result
  else
    Except.ok result

/-- Decidable equality of `Except` values, for evaluating the models on
concrete inputs. -/
instance {ε α : Type} [DecidableEq ε] [DecidableEq α] : DecidableEq (Except ε α) := fun x y =>
  match x, y with
  | Except.ok a, Except.ok b =>
    if h : a = b then isTrue (by rw [h]) else isFalse (by simp [h])
  | Except.error a, Except.error b =>
    if h : a = b then isTrue (by rw [h]) else isFalse (by simp [h])
  | Except.ok _, Except.error _ => isFalse (by simp)
  | Except.error _, Except.ok _ => isFalse (by simp)

/-! ## Split/join lemmas -/

theorem splitOnAux_ne_nil (sep : List Char) :
    ∀ (fuel : Nat) (xs acc : List Char), splitOnAux sep fuel xs acc ≠ [] := by
  intro fuel
  induction fuel with
  | zero => intro xs acc; simp [splitOnAux]
  | succ n ih =>
    intro xs acc
    cases xs with
    | nil => simp [splitOnAux]
    | cons x rest =>
      cases h : sep.isPrefixOf (x :: rest) with
      | true => simp [splitOnAux, h]
      | false => simpa [splitOnAux, h] using ih rest (x :: acc)

theorem joinSep_cons (sep p : List Char) (ps : List (List Char)) (h : ps ≠ []) :
    joinSep sep (p :: ps) = p ++ sep ++ joinSep sep ps := by
  cases ps with
  | nil => exact absurd rfl h
  | cons q ps => rfl

theorem isPrefixOf_append_drop : ∀ (l₁ l₂ : List Char), l₁.isPrefixOf l₂ = true →
    l₁ ++ l₂.drop l₁.length = l₂
  | [], l₂, _ => by simp
  | a :: as, [], h => by simp [List.isPrefixOf] at h
  | a :: as, b :: bs, h => by
    simp only [List.isPrefixOf, Bool.and_eq_true, beq_iff_eq] at h
    obtain ⟨rfl, h2⟩ := h
    simp only [List.length_cons, List.drop_succ_cons, List.cons_append, List.cons.injEq,
      true_and]
    exact isPrefixOf_append_drop as bs h2

theorem joinSep_splitOnAux (sep : List Char) :
    ∀ (fuel : Nat) (xs acc : List Char),
      joinSep sep (splitOnAux sep fuel xs acc) = acc.reverse ++ xs := by
  intro fuel
  induction fuel with
  | zero => intro xs acc; simp [splitOnAux, joinSep]
  | succ n ih =>
    intro xs acc
    cases xs with
    | nil => simp [splitOnAux, joinSep]
    | cons x rest =>
      cases h : sep.isPrefixOf (x :: rest) with
      | true =>
        simp only [splitOnAux, h]
        rw [joinSep_cons sep _ _ (splitOnAux_ne_nil sep n _ [])]
        rw [ih]
        simp only [List.reverse_nil, List.nil_append, List.append_assoc]
        rw [isPrefixOf_append_drop sep (x :: rest) h]
      | false =>
        simp only [splitOnAux, h]
        rw [ih]
        simp [List.append_assoc]

theorem joinSep_splitOnList (sep xs : List Char) :
    joinSep sep (splitOnList sep xs) = xs := by
  simpa using joinSep_splitOnAux sep (xs.length + 1) xs []

theorem splitOnList_ne_nil (sep xs : List Char) : splitOnList sep xs ≠ [] :=
  splitOnAux_ne_nil sep _ xs []

theorem joinSep_append_last (sep last : List Char) :
    ∀ (ps : List (List Char)), ps ≠ [] →
      joinSep sep (ps ++ [last]) = joinSep sep ps ++ sep ++ last
  | [], h => absurd rfl h
  | [p], _ => rfl
  | p :: q :: ps, _ => by
    have ih := joinSep_append_last sep last (q :: ps) (by simp)
    simp only [List.cons_append] at ih ⊢
    rw [show joinSep sep (p :: q :: (ps ++ [last]))
        = p ++ sep ++ joinSep sep (q :: (ps ++ [last])) from rfl]
    rw [ih]
    rw [show joinSep sep (p :: q :: ps) = p ++ sep ++ joinSep sep (q :: ps) from rfl]
    simp [List.append_assoc]

theorem cons_flatten_joinSep (pat : List Char) :
    ∀ (ss : List (List Char)) (b : List Char),
      b ++ (ss.map fun s => pat ++ s).flatten = joinSep pat (b :: ss)
  | [], b => by simp [joinSep]
  | s :: ss, b => by
    have ih := cons_flatten_joinSep pat ss s
    simp only [List.map_cons, List.flatten_cons]
    rw [joinSep_cons pat b (s :: ss) (by simp)]
    rw [← ih]
    simp [List.append_assoc]

/-! ## String-level bridging lemmas -/

theorem strExt {a b : String} (h : a.data = b.data) : a = b := by
  cases a; cases b; exact congrArg String.mk h

theorem foldl_append_data : ∀ (l : List String) (acc : String),
    (l.foldl (· ++ ·) acc).data = acc.data ++ (l.map String.data).flatten
  | [], acc => by simp
  | s :: l, acc => by
    simp only [List.foldl_cons, List.map_cons, List.flatten_cons]
    rw [foldl_append_data l (acc ++ s)]
    simp [String.data_append, List.append_assoc]

theorem join_data (l : List String) :
    (String.join l).data = (l.map String.data).flatten := by
  rw [show String.join l = l.foldl (· ++ ·) "" from rfl, foldl_append_data]
  rfl

theorem join_map_mk (ls : List (List Char)) :
    String.join (ls.map fun l => String.mk l) = String.mk ls.flatten := by
  apply strExt
  rw [join_data]
  rw [List.map_map]
  rw [show (String.data ∘ fun l : List Char => String.mk l) = id from rfl, List.map_id]

theorem chunksList_flatten (html : List Char) (cs : List (List Char))
    (h : chunksList html = Except.ok cs) : cs.flatten = html := by
  unfold chunksList at h
  cases hs : splitOnList HEAD_CLOSE_TAG.data html with
  | nil => rw [hs] at h; simp only [Except.ok.injEq] at h; subst h; simp
  | cons p rest =>
    cases rest with
    | nil => rw [hs] at h; simp only [Except.ok.injEq] at h; subst h; simp
    | cons q ps =>
      rw [hs] at h
      simp only at h
      split at h
      · exact absurd h (by simp)
      · simp only [Except.ok.injEq] at h
        subst h
        simp only [List.flatten_cons]
        rw [cons_flatten_joinSep]
        cases hb : splitOnList SHOEBOX_TAG_PATTERN.data
            ((p :: q :: ps).getLast (List.cons_ne_nil p (q :: ps))) with
        | nil => exact absurd hb (splitOnList_ne_nil _ _)
        | cons b bs =>
          simp only [List.headD_cons, List.tail_cons]
          rw [← hb, joinSep_splitOnList]
          rw [← joinSep_append_last HEAD_CLOSE_TAG.data _ _ (by simp [List.dropLast])]
          rw [List.dropLast_append_getLast (List.cons_ne_nil p (q :: ps))]
          rw [← hs, joinSep_splitOnList]

/-! ## Claim theorems -/

/-- Claim C2: for every cached full-document string and every number of embedded
shoebox script tags (0, 1 or N), concatenating all strings returned by
`Result.chunks()`, in order, exactly reproduces the original cached
full-document string. -/
theorem chunks_concat_reproduces_html (html : String) (cs : List String)
    (h : Result.chunksRun html = Except.ok cs) : String.join cs = html := by
  unfold Result.chunksRun at h
  cases hc : chunksList html.data with
  | error e => rw [hc] at h; simp [Except.map] at h
  | ok ls =>
    rw [hc] at h
    simp only [Except.map, Except.ok.injEq] at h
    subst h
    rw [join_map_mk, chunksList_flatten html.data ls hc]

/-- Witness for C2 on a concrete document with one shoebox tag. -/
theorem chunks_concat_reproduces_html_witness :
    Result.chunksRun "a</head>b<script type=\"fastboot/shoebox\">c" =
        Except.ok ["a</head>", "b", "<script type=\"fastboot/shoebox\">c"] ∧
      String.join ["a</head>", "b", "<script type=\"fastboot/shoebox\">c"] =
        "a</head>b<script type=\"fastboot/shoebox\">c" :=
  ⟨by decide, chunks_concat_reproduces_html _ _ (by decide)⟩

/-- Claim C3: `html()` applies status-code-driven overrides — 204 yields the
empty string (and empties all three cached strings); a [300,399] status yields
the synthesized minimal document, with a `Redirecting to` anchor when a
(non-empty, i.e. JS-truthy) `location` header is present and the boundary
comment placeholder otherwise; any other status code returns the harvested
markup unmodified. -/
theorem html_status_overrides (st : ResultState) (resp : FastbootResponse)
    (hresp : st.response = some resp) :
    (resp.getStatusCode = 204 →
      Result.htmlRun st = ("", { st with _html := "", _head := "", _body := "" })) ∧
    (300 ≤ resp.getStatusCode → resp.getStatusCode ≤ 399 →
      (∀ loc, resp.headers.get "location" = some loc → loc ≠ "" →
        (Result.htmlRun st).1 =
          "<html><head></head><body><h1>Redirecting to <a href=\"" ++ loc
            ++ "\">" ++ loc ++ "</a></h1></body></html>") ∧
      ((resp.headers.get "location" = none ∨ resp.headers.get "location" = some "") →
        (Result.htmlRun st).1 =
          "<html><head></head><body><!-- EMBER_CLI_FASTBOOT_BODY --></body></html>")) ∧
    (resp.getStatusCode ≠ 204 → ¬(300 ≤ resp.getStatusCode ∧ resp.getStatusCode ≤ 399) →
      (Result.htmlRun st).1 = st._html ∧ (Result.htmlRun st).2 = st) := by
  refine ⟨?_, ?_, ?_⟩
  · intro h204
    simp [Result.htmlRun, hresp, h204]
  · intro h300 h399
    have h204 : ¬(resp.getStatusCode = 204) := by omega
    constructor
    · intro loc hloc hne
      simp [Result.htmlRun, hresp, h204, h300, h399, hloc, hne]
    · intro hnone
      cases hnone with
      | inl hl => simp [Result.htmlRun, hresp, h204, h300, h399, hl]
      | inr hl => simp [Result.htmlRun, hresp, h204, h300, h399, hl]
  · intro h204 hrange
    simp [Result.htmlRun, hresp, h204, hrange]

/-- Witness for C3: a 307 response with a `location` header produces the
redirect document. -/
theorem html_status_overrides_witness :
    (Result.htmlRun
        { _html := "<html>orig</html>", _head := "H", _body := "B",
          response := some (FastbootResponse.ofRaw
            { _headers := some [("location", "http://x/y")], statusCode := some 307 }) }).1 =
      "<html><head></head><body><h1>Redirecting to <a href=\"http://x/y\">http://x/y</a></h1></body></html>" :=
  ((html_status_overrides _ _ rfl).2.1 (by decide) (by decide)).1 "http://x/y" (by decide) (by decide)

/-- Claim C10: when the status code is 204 or in [300,399], `html()` overwrites
the cached head and body as a side effect, so subsequent `domContents()` calls
return the overridden (empty) pair; for any other status code the cached pair
is left unchanged. -/
theorem html_overwrites_dom_contents (st : ResultState) (resp : FastbootResponse)
    (hresp : st.response = some resp) :
    ((resp.getStatusCode = 204 ∨ (300 ≤ resp.getStatusCode ∧ resp.getStatusCode ≤ 399)) →
      Result.domContents (Result.htmlRun st).2 = ("", "")) ∧
    ((resp.getStatusCode ≠ 204 ∧ ¬(300 ≤ resp.getStatusCode ∧ resp.getStatusCode ≤ 399)) →
      Result.domContents (Result.htmlRun st).2 = Result.domContents st) := by
  constructor
  · intro hc
    cases hc with
    | inl h204 => simp [Result.htmlRun, Result.domContents, hresp, h204]
    | inr hrange =>
      have h204 : ¬(resp.getStatusCode = 204) := by omega
      cases hloc : resp.headers.get "location" with
      | none =>
        simp [Result.htmlRun, Result.domContents, hresp, h204, hrange.1, hrange.2, hloc]
      | some loc =>
        by_cases hne : loc = ""
        · simp [Result.htmlRun, Result.domContents, hresp, h204, hrange.1, hrange.2, hloc, hne]
        · simp [Result.htmlRun, Result.domContents, hresp, h204, hrange.1, hrange.2, hloc, hne]
  · intro hc
    simp [Result.htmlRun, Result.domContents, hresp, hc.1, hc.2]

/-- Witness for C10: a 204 response empties the cached pair; a 418 response
leaves it untouched. -/
theorem html_overwrites_dom_contents_witness :
    Result.domContents (Result.htmlRun
        { _html := "<html>orig</html>", _head := "H", _body := "B",
          response := some (FastbootResponse.ofRaw
            { _headers := none, statusCode := some 204 }) }).2 = ("", "") ∧
    Result.domContents (Result.htmlRun
        { _html := "<html>orig</html>", _head := "H", _body := "B",
          response := some (FastbootResponse.ofRaw
            { _headers := none, statusCode := some 418 }) }).2 = ("H", "B") :=
  ⟨(html_overwrites_dom_contents _ _ rfl).1 (Or.inl (by decide)),
   (html_overwrites_dom_contents _ _ rfl).2 (by decide)⟩

theorem foldl_append_eq_join {α : Type} (f : α → String) :
    ∀ (l : List α) (b : String), l.foldl (fun acc x => acc ++ f x) b = b ++ String.join (l.map f)
  | [], b => by
    apply strExt
    simp [join_data, String.data_append]
  | x :: l, b => by
    simp only [List.foldl_cons, List.map_cons]
    rw [foldl_append_eq_join f l (b ++ f x)]
    apply strExt
    simp [join_data, String.data_append, List.append_assoc]

/-- Claim C4: unless shoebox writing is disabled, for every key of the shoebox
mapping the JSON text of its value is escaped (replacing the five special
characters by their `\uXXXX` forms) and one shoebox script element per key is
appended at the end of the document body, in mapping iteration order. -/
theorem shoebox_written_escaped_in_order (disableShoebox : Bool) (body : String)
    (entries : List (String × String)) (h : disableShoebox = false) :
    writeShoeboxStep disableShoebox body (some entries) =
      body ++ String.join
        (entries.map fun kv => shoeboxScriptTag kv.1 (escapeJSONString kv.2)) := by
  subst h
  simp only [writeShoeboxStep, Bool.false_eq_true, if_false, createShoebox]
  exact foldl_append_eq_join _ entries body

/-- Witness for C4: the five-character escape table on a concrete shoebox. -/
theorem shoebox_written_escaped_in_order_witness :
    writeShoeboxStep false "<body>" (some [("key5", "\"&<>\u2028\u2029\"")]) =
      "<body><script type=\"fastboot/shoebox\" id=\"shoebox-key5\">\"\\u0026\\u003c\\u003e\\u2028\\u2029\"</script>" := by
  rw [shoebox_written_escaped_in_order false "<body>" [("key5", "\"&<>\u2028\u2029\"")] rfl]
  decide

/-- Claim C5: the request host accessor fails with a validation error when the
`Host` header matches no whitelist entry (exact equality, or regex test for a
slash-delimited entry), fails when no whitelist is configured at all, and
returns the `Host` header value when some entry matches. -/
theorem host_whitelist_validation (regexTest : String → String → Bool)
    (wl : List String) (hostHeader : Option String) :
    (FastBootRequest.hostRun regexTest none hostHeader =
        Except.error "You must provide a hostWhitelist to retrieve the host") ∧
    (wl.any (entryMatchesHost regexTest hostHeader) = false →
      FastBootRequest.hostRun regexTest (some wl) hostHeader =
        Except.error ("The host header did not match a hostWhitelist entry. Host header: "
          ++ hostToJsString hostHeader)) ∧
    (wl.any (entryMatchesHost regexTest hostHeader) = true →
      FastBootRequest.hostRun regexTest (some wl) hostHeader = Except.ok hostHeader) := by
  refine ⟨rfl, ?_, ?_⟩ <;> intro h <;> simp [FastBootRequest.hostRun, h]

/-- Witness for C5: an exactly matching whitelist entry returns the host. -/
theorem host_whitelist_validation_witness :
    FastBootRequest.hostRun (fun _ _ => false) (some ["example.com"]) (some "example.com") =
      Except.ok (some "example.com") :=
  (host_whitelist_validation (fun _ _ => false) ["example.com"] (some "example.com")).2.2
    (by decide)

/-- Claim C6: serializing a `FastBootInfo` always yields the ordered four-slot
tuple `[requestData|undefined, responseData|undefined, \x7bhostWhitelist,
metadata\x7d, shoebox]`, with the first slot `undefined` exactly when no request
is present (the constructor always installs a response, so the second slot is
always populated), and reconstructing from that tuple preserves this exact
shape. -/
theorem renderinfo_serialize_shape (cookieParse : String → List (String × String))
    (request : Option RequestData) (response : Option RespRaw)
    (options : FBOptions) (shoebox : Option String) :
    let t := (FastBootInfo.construct cookieParse request response options shoebox).serializeInfo
    let t2 := (t.reconstruct cookieParse).serializeInfo
    t.requestData.isSome = request.isSome ∧
    t.responseData.isSome = true ∧
    t.shoebox = shoebox ∧
    t.options.metadata = options.metadata ∧
    t2.requestData.isSome = t.requestData.isSome ∧
    t2.responseData.isSome = true ∧
    t2.shoebox = t.shoebox ∧
    t2.options.metadata = t.options.metadata := by
  cases request <;>
    simp [FastBootInfo.construct, FastBootInfo.serializeInfo, SerializedInfo.reconstruct,
      FastBootRequest.ofRaw, FastBootRequest.serializeRequest, FastbootResponse.ofRaw,
      FastbootResponse.serializeResponse, RespData.asRaw]

/-- Counterexample for C7 as stated: an error whose message is the empty string
does not indicate a closed surface or session, yet `evaluate` swallows it
(returns `undefined`) instead of propagating it, because the source guards the
rethrow with JS truthiness of `err.message`. -/
theorem empty_message_error_swallowed :
    closedMessageMatch "" = false ∧
    Result.evaluateRun false (Except.error { message := some "" } : Except JsError Unit) =
      Except.ok none := by
  decide

/-- Claim C7 (amended): once destroyed, `setContent` and `evaluate` no-op
returning `undefined`; an error whose message matches the closed-surface
pattern, or whose message is absent or empty (JS-falsy), is swallowed; every
error with a non-empty message not matching the pattern propagates. -/
theorem evaluate_error_swallowing {α : Type} (destroyed : Bool) (cb : Except JsError α)
    (e : JsError) :
    (destroyed = true →
      Result.evaluateRun destroyed cb = Except.ok none ∧
      Result.setContentRun destroyed cb = Except.ok none) ∧
    (destroyed = false → cb = Except.error e →
      closedMessageMatch (e.message.getD "") = true →
      Result.evaluateRun destroyed cb = Except.ok none ∧
      Result.setContentRun destroyed cb = Except.ok none) ∧
    (destroyed = false → cb = Except.error e → jsTruthyMessage e.message = false →
      Result.evaluateRun destroyed cb = Except.ok none ∧
      Result.setContentRun destroyed cb = Except.ok none) ∧
    (destroyed = false → cb = Except.error e → jsTruthyMessage e.message = true →
      closedMessageMatch (e.message.getD "") = false →
      Result.evaluateRun destroyed cb = Except.error e ∧
      Result.setContentRun destroyed cb = Except.error e) := by
  refine ⟨?_, ?_, ?_, ?_⟩
  · intro hd
    subst hd
    simp [Result.evaluateRun, Result.setContentRun]
  · intro hd hcb hm
    subst hd; subst hcb
    simp [Result.evaluateRun, Result.setContentRun, tryWithPageAwareness, hm, Except.map]
  · intro hd hcb hm
    subst hd; subst hcb
    simp [Result.evaluateRun, Result.setContentRun, tryWithPageAwareness, hm, Except.map]
  · intro hd hcb hm hnm
    subst hd; subst hcb
    simp [Result.evaluateRun, Result.setContentRun, tryWithPageAwareness, hm, hnm, Except.map]

/-- Witness for C7 (amended): a `Target closed.` error is swallowed; a genuine
render error propagates from both operations. -/
theorem evaluate_error_swallowing_witness :
    (Result.evaluateRun false
        (Except.error { message := some "Target closed." } : Except JsError Unit) =
      Except.ok none) ∧
    (Result.evaluateRun false
        (Except.error { message := some "boom" } : Except JsError Unit) =
      Except.error { message := some "boom" }) ∧
    (Result.setContentRun false
        (Except.error { message := some "boom" } : Except JsError Unit) =
      Except.error { message := some "boom" }) :=
  ⟨((evaluate_error_swallowing false _ { message := some "Target closed." }).2.1
      rfl rfl (by decide)).1,
   ((evaluate_error_swallowing false _ { message := some "boom" }).2.2.2
      rfl rfl (by decide) (by decide)).1,
   ((evaluate_error_swallowing false _ { message := some "boom" }).2.2.2
      rfl rfl (by decide) (by decide)).2⟩

/-- Claim C9: the coordinator visit rejects with exactly the error captured on
the result when resilient mode is not active, and otherwise returns the result
even when it carries an error. -/
theorem visit_rethrows_error_unless_resilient (optionsResilient : Option Bool)
    (configResilient : Bool) (result : VisitResult) :
    (resolveResilient optionsResilient configResilient = false → ∀ e,
      result.error = some e →
      PowerBoot.visitOutcome optionsResilient configResilient result = Except.error e) ∧
    (resolveResilient optionsResilient configResilient = true →
      PowerBoot.visitOutcome optionsResilient configResilient result = Except.ok result) ∧
    (result.error = none →
      PowerBoot.visitOutcome optionsResilient configResilient result = Except.ok result) := by
  refine ⟨?_, ?_, ?_⟩
  · intro hr e he
    simp [PowerBoot.visitOutcome, hr, he]
  · intro hr
    simp [PowerBoot.visitOutcome, hr]
  · intro he
    cases hr : resolveResilient optionsResilient configResilient <;>
      simp [PowerBoot.visitOutcome, hr, he]

/-- Witness for C9: non-resilient visit rejects with the captured error;
resilient visit returns the errored result. -/
theorem visit_rethrows_error_unless_resilient_witness :
    (PowerBoot.visitOutcome none false { error := some { message := some "boom" }, html := "" } =
      Except.error { message := some "boom" }) ∧
    (PowerBoot.visitOutcome (some true) false
        { error := some { message := some "boom" }, html := "" } =
      Except.ok { error := some { message := some "boom" }, html := "" }) :=
  ⟨(visit_rethrows_error_unless_resilient none false _).1 rfl _ rfl,
   (visit_rethrows_error_unless_resilient (some true) false _).2.1 rfl⟩

/-- Claim C1 (code bug): the deadline timer writes `this._hasInitialized =
false`, but the visit protocol consults the distinct property
`this.hasInitialized`, which the timer leaves untouched — so after a visit
whose deadline fired, a second visit does NOT re-run boot-time injection
(`bootCount` stays 1), even though the forced reload has discarded the injected
in-page state (`sandboxGlobalsPresent` is false). -/
theorem deadline_fire_does_not_clear_boot_flag :
    (∀ s : EmberAppState,
      (stepEvent s InstanceEvent.deadlineFire).hasInitialized = s.hasInitialized) ∧
    runEvents [InstanceEvent.visit, InstanceEvent.deadlineFire, InstanceEvent.visit]
        EmberAppState.init =
      { hasInitialized := true, _hasInitialized := false, bootCount := 1,
        sandboxGlobalsPresent := false } :=
  ⟨fun _ => rfl, by decide⟩

theorem runEvents_cons (e : InstanceEvent) (es : List InstanceEvent) (s : EmberAppState) :
    runEvents (e :: es) s = runEvents es (stepEvent s e) := rfl

theorem stepEvent_visit_booted (s : EmberAppState) (h : s.hasInitialized = true) :
    stepEvent s InstanceEvent.visit = s := by
  simp [stepEvent, h]

theorem stepEvent_visit_unbooted (s : EmberAppState) (h : ¬s.hasInitialized = true) :
    stepEvent s InstanceEvent.visit =
      { s with
          hasInitialized := true,
          bootCount := s.bootCount + 1,
          sandboxGlobalsPresent := true } := by
  simp [stepEvent, h]

theorem runEvents_bound : ∀ (events : List InstanceEvent) (s : EmberAppState),
    s.bootCount ≤ 1 → (s.hasInitialized = false → s.bootCount = 0) →
    (runEvents events s).bootCount ≤ 1
  | [], _, h1, _ => h1
  | e :: es, s, h1, h2 => by
    rw [runEvents_cons]
    cases e with
    | visit =>
      by_cases hb : s.hasInitialized = true
      · rw [stepEvent_visit_booted s hb]
        exact runEvents_bound es s h1 h2
      · have h0 := h2 (by simpa using hb)
        rw [stepEvent_visit_unbooted s hb]
        exact runEvents_bound es _ (by show s.bootCount + 1 ≤ 1; omega)
          (fun hh => Bool.noConfusion hh)
    | deadlineFire =>
      exact runEvents_bound es _ h1 h2

theorem runEvents_visit_fixed : ∀ (m : Nat) (s : EmberAppState), s.hasInitialized = true →
    runEvents (List.replicate m InstanceEvent.visit) s = s
  | 0, _, _ => rfl
  | m + 1, s, h => by
    rw [List.replicate_succ, runEvents_cons]
    rw [stepEvent_visit_booted s h]
    exact runEvents_visit_fixed m s h

/-- Claim C8: boot-time injection runs at most once per instance lifetime: over
any event sequence the boot block runs at most once, and across any sequence of
n ≥ 1 plain visits the instance ends booted exactly once with the injected
sandbox globals still present (so two sequential visits both observe them). -/
theorem boot_runs_at_most_once (events : List InstanceEvent) (n : Nat) (h : 1 ≤ n) :
    (runEvents events EmberAppState.init).bootCount ≤ 1 ∧
    runEvents (List.replicate n InstanceEvent.visit) EmberAppState.init =
      { hasInitialized := true, _hasInitialized := false, bootCount := 1,
        sandboxGlobalsPresent := true } := by
  constructor
  · exact runEvents_bound events EmberAppState.init (by decide) (fun _ => rfl)
  · obtain ⟨k, rfl⟩ : ∃ k, n = k + 1 := ⟨n - 1, by omega⟩
    rw [List.replicate_succ, runEvents_cons]
    have hstep : stepEvent EmberAppState.init InstanceEvent.visit =
        { hasInitialized := true, _hasInitialized := false, bootCount := 1,
          sandboxGlobalsPresent := true } := by decide
    rw [hstep]
    exact runEvents_visit_fixed k _ rfl

/-- Witness for C8: two sequential visits boot exactly once and keep the
sandbox globals. -/
theorem boot_runs_at_most_once_witness :
    (runEvents [InstanceEvent.visit, InstanceEvent.visit] EmberAppState.init).bootCount ≤ 1 ∧
    runEvents (List.replicate 2 InstanceEvent.visit) EmberAppState.init =
      { hasInitialized := true, _hasInitialized := false, bootCount := 1,
        sandboxGlobalsPresent := true } :=
  boot_runs_at_most_once [InstanceEvent.visit, InstanceEvent.visit] 2 (by decide)

end Powerboot
